import Mathlib

/-!
Verification of the drop-reg.cc URL-shortener.

This file is a shallow embedding in Lean 4 of the Go source of the
drop-reg.cc redirect service (files main.go, server.go, handlers.go,
auth.go, config.go, database.go).  Go strings are modelled as lists of
Unicode code points (List Nat); the SQLite url_mappings / users /
sessions tables are modelled as in-memory lists; the wall clock
(datetime('now')) is an explicit Nat parameter.  Every handler is a pure
function from the store state (and its inputs) to an outcome plus the
store state after the call.
-/

namespace DropReg

/-- Go strings are sequences of runes; we model a string as its list of
Unicode code points. -/
abbrev GoStr := List Nat

/-- Interpretation of a Lean string literal as a Go string value (list of
code points); used only to write concrete inputs. -/
def goStr (s : String) : GoStr := s.data.map Char.toNat

/-- Model of Go's unicode.IsSpace on the ASCII range: space, tab, newline,
carriage return, vertical tab, form feed (the inputs this service handles
are ASCII). -/
def isSpaceRune (c : Nat) : Bool :=
  c == 32 || c == 9 || c == 10 || c == 13 || c == 11 || c == 12

/-- Model of Go's strings.TrimSpace: drops leading and trailing
whitespace runes. -/
def trimSpace (s : GoStr) : GoStr :=
  ((s.dropWhile isSpaceRune).reverse.dropWhile isSpaceRune).reverse

/-- Lowercasing of a single rune, ASCII range (Go's strings.ToLower on
the inputs this service handles). -/
def lowerRune (c : Nat) : Nat := if 65 ≤ c ∧ c ≤ 90 then c + 32 else c

/-- Model of Go's strings.ToLower. -/
def toLower (s : GoStr) : GoStr := s.map lowerRune

/-- Character class [a-zA-Z0-9] of the Discord-URL regular expression. -/
def isInviteRune (c : Nat) : Bool :=
  (97 ≤ c && c ≤ 122) || (65 ≤ c && c ≤ 90) || (48 ≤ c && c ≤ 57)

/-- Strips a literal from the front of a string: returns the remainder
when the literal is present, none otherwise. -/
def stripLit : GoStr → GoStr → Option GoStr
  | [], rest => some rest
  | _ :: _, [] => none
  | p :: ps, c :: cs => if c == p then stripLit ps cs else none

/-- The literal part of the anchored regular expression
"^https://discord\.gg/[a-zA-Z0-9]+$" (main.go, discordURLRegex). -/
def discordGG : GoStr := goStr "https://discord.gg/"

/-- Model of discordURLRegex.MatchString: the whole string must be the
literal "https://discord.gg/" followed by one or more characters from
[a-zA-Z0-9]; the ^ and $ anchors mean nothing before or after. -/
def discordURLRegexMatch (s : GoStr) : Bool :=
  match stripLit discordGG s with
  | some rest => !rest.isEmpty && rest.all isInviteRune
  | none => false

/-- One row of the url_mappings table (database.go, initDB):
id INTEGER PRIMARY KEY AUTOINCREMENT, short_code TEXT UNIQUE NOT NULL,
discord_url TEXT NOT NULL, created_at DATETIME, expires_at DATETIME
(nullable), owner_id TEXT NOT NULL. -/
structure URLMapping where
  id : Nat
  shortCode : GoStr
  discordURL : GoStr
  createdAt : Nat
  expiresAt : Option Nat
  ownerID : GoStr
deriving DecidableEq, Repr

/-- The url_mappings table: its rows plus the AUTOINCREMENT counter. -/
structure DB where
  rows : List URLMapping
  nextId : Nat
deriving DecidableEq, Repr

/-- The SQL condition "expires_at IS NULL OR expires_at > datetime('now')"
used by getURLMappingByShortCode and getUserMappings. -/
def notExpired (now : Nat) (m : URLMapping) : Bool :=
  match m.expiresAt with
  | none => true
  | some t => now < t

/-- Model of getURLMappingByShortCode (database.go): SELECT discord_url
FROM url_mappings WHERE short_code = ? AND (expires_at IS NULL OR
expires_at > datetime('now')).  none models sql.ErrNoRows. -/
def getURLMappingByShortCode (db : DB) (now : Nat) (shortCode : GoStr) : Option GoStr :=
  (db.rows.find? (fun m => m.shortCode == shortCode && notExpired now m)).map
    (fun m => m.discordURL)

/-- Model of createURLMapping (database.go): INSERT INTO url_mappings
(short_code, discord_url, owner_id) VALUES (?, ?, ?).  The UNIQUE
constraint on short_code makes the insert fail (none, Go error
containing "UNIQUE constraint failed") exactly when a row with the same
short code already exists, expired or not; otherwise the row is appended
with the next id, created_at = now and expires_at NULL. -/
def createURLMapping (db : DB) (now : Nat) (shortCode discordURL ownerID : GoStr) :
    Option DB :=
  if db.rows.any (fun m => m.shortCode == shortCode) then none
  else some ⟨db.rows ++ [⟨db.nextId, shortCode, discordURL, now, none, ownerID⟩],
             db.nextId + 1⟩

/-- Insertion into a list kept sorted by created_at descending; used to
model the ORDER BY created_at DESC clause of getUserMappings. -/
def insertByCreatedDesc (m : URLMapping) : List URLMapping → List URLMapping
  | [] => [m]
  | x :: xs => if m.createdAt ≤ x.createdAt then x :: insertByCreatedDesc m xs
               else m :: x :: xs

/-- Sorting by created_at descending (ORDER BY created_at DESC). -/
def orderByCreatedDesc (l : List URLMapping) : List URLMapping :=
  l.foldr insertByCreatedDesc []

/-- Model of getUserMappings (database.go): SELECT ... FROM url_mappings
WHERE owner_id = ? AND (expires_at IS NULL OR expires_at >
datetime('now')) ORDER BY created_at DESC.  The SQL projects three
columns; we return the matching rows themselves. -/
def getUserMappings (db : DB) (now : Nat) (userID : GoStr) : List URLMapping :=
  orderByCreatedDesc (db.rows.filter (fun m => m.ownerID == userID && notExpired now m))

/-- Model of getURLMappingOwner (database.go): SELECT owner_id FROM
url_mappings WHERE short_code = ?.  Note: no expiry condition.  none
models sql.ErrNoRows. -/
def getURLMappingOwner (db : DB) (shortCode : GoStr) : Option GoStr :=
  (db.rows.find? (fun m => m.shortCode == shortCode)).map (fun m => m.ownerID)

/-- Model of deleteURLMapping (database.go): DELETE FROM url_mappings
WHERE short_code = ? AND owner_id = ?; returns the new table and
RowsAffected. -/
def deleteURLMapping (db : DB) (shortCode ownerID : GoStr) : DB × Nat :=
  let kept := db.rows.filter (fun m => !(m.shortCode == shortCode && m.ownerID == ownerID))
  (⟨kept, db.nextId⟩, db.rows.length - kept.length)

/-- Outcome of handleRegisterSubmit: HTTP 400 "Short code is required" or
"Invalid Discord URL" (validationError), HTTP 409 "Short code already
exists" (conflictError), or the success page showing the stored code and
URL.  The only store failure the model can produce is the UNIQUE
constraint violation, so the generic 500 branch of the handler is not
represented. -/
inductive RegOutcome where
  | validationError
  | conflictError
  | success (shortCode discordURL : GoStr)
deriving DecidableEq, Repr

/-- Model of handleRegisterSubmit (handlers.go): trims both form values,
lowercases the code, rejects an empty code and a URL failing
discordURLRegex, then inserts; a UNIQUE-constraint failure is reported
as a conflict.  Returns the outcome together with the table after the
call (unchanged on every error path). -/
def handleRegisterSubmit (db : DB) (now : Nat) (rawCode rawURL ownerID : GoStr) :
    RegOutcome × DB :=
  let shortCode := toLower (trimSpace rawCode)
  let discordURL := trimSpace rawURL
  if shortCode == [] then (.validationError, db)
  else if !discordURLRegexMatch discordURL then (.validationError, db)
  else
    match createURLMapping db now shortCode discordURL ownerID with
    | none => (.conflictError, db)
    | some db2 => (.success shortCode discordURL, db2)

/-- Outcome of handleRedirect: the 404 error page or an HTTP 302 redirect
to the stored Discord URL. -/
inductive RedirectOutcome where
  | notFound
  | redirect (url : GoStr)
deriving DecidableEq, Repr

/-- Model of handleRedirect (handlers.go): lowercases the incoming short
code (no trimming), looks it up honouring expiry, 404 on ErrNoRows,
otherwise 302 to the stored URL. -/
def handleRedirect (db : DB) (now : Nat) (shortCode0 : GoStr) : RedirectOutcome :=
  let shortCode := toLower shortCode0
  match getURLMappingByShortCode db now shortCode with
  | none => .notFound
  | some u => .redirect u

/-- Outcome of handleDelete: HTTP 400 (empty code), 404 (unknown code or
zero rows affected), 403 (ownership mismatch), or the redirect to the
dashboard on success. -/
inductive DeleteOutcome where
  | validationError
  | notFound
  | forbidden
  | ok
deriving DecidableEq, Repr

/-- Model of handleDelete (handlers.go): trims and lowercases the form
code, rejects an empty code, resolves the current owner via
getURLMappingOwner (404 on ErrNoRows), rejects a requester that is not
the stored owner (403), then deletes scoped by (code, requester) and
reports 404 when zero rows were affected.  Returns the outcome together
with the table after the call. -/
def handleDelete (db : DB) (rawCode requesterID : GoStr) : DeleteOutcome × DB :=
  let shortCode := toLower (trimSpace rawCode)
  if shortCode == [] then (.validationError, db)
  else
    match getURLMappingOwner db shortCode with
    | none => (.notFound, db)
    | some owner =>
      if owner != requesterID then (.forbidden, db)
      else
        let r := deleteURLMapping db shortCode requesterID
        if r.2 == 0 then (.notFound, r.1) else (.ok, r.1)

/-- One row of the users table (main.go, type User). -/
structure User where
  id : GoStr
  username : GoStr
  avatar : GoStr
  discriminator : GoStr
deriving DecidableEq, Repr

/-- One row of the sessions table. -/
structure Session where
  id : GoStr
  userId : GoStr
  expiresAt : Nat
deriving DecidableEq, Repr

/-- Model of getUserFromSession (auth.go): SELECT u.* FROM users u JOIN
sessions s ON u.id = s.user_id WHERE s.id = ? AND s.expires_at >
datetime('now'). -/
def getUserFromSession (users : List User) (sessions : List Session) (now : Nat)
    (sessionID : GoStr) : Option User :=
  match sessions.find? (fun s => s.id == sessionID && now < s.expiresAt) with
  | none => none
  | some s => users.find? (fun u => u.id == s.userId)

/-- Model of getCurrentUser (auth.go): reads the session_id cookie
(absent cookie is an error) and resolves it through getUserFromSession. -/
def getCurrentUser (users : List User) (sessions : List Session) (now : Nat)
    (cookie : Option GoStr) : Option User :=
  match cookie with
  | none => none
  | some sid => getUserFromSession users sessions now sid

/-- Outcome of handleDashboard: an HTTP 302 redirect to the given
location, or the rendered index.html page with the user and the user's
links. -/
inductive DashboardOutcome where
  | redirectTo (location : GoStr)
  | page (user : User) (links : List URLMapping)
deriving DecidableEq, Repr

/-- Model of handleDashboard (handlers.go): an unauthenticated request is
redirected to /auth/login; an authenticated one is shown index.html with
that user's mappings from getUserMappings. -/
def handleDashboard (db : DB) (users : List User) (sessions : List Session) (now : Nat)
    (cookie : Option GoStr) : DashboardOutcome :=
  match getCurrentUser users sessions now cookie with
  | none => .redirectTo (goStr "/auth/login")
  | some u => .page u (getUserMappings db now u.id)

/-- Does the string start with the given literal? -/
def startsWithLit (lit s : GoStr) : Bool := (stripLit lit s).isSome

/-- Strips the literal from the front when present, else returns the
string unchanged (Go's strings.TrimPrefix). -/
def dropLit (lit s : GoStr) : GoStr :=
  match stripLit lit s with
  | some r => r
  | none => s

/-- The handler a request is dispatched to. -/
inductive Route where
  | redirectShortCode (code : GoStr)
  | dashboard
  | registerPage
  | staticAsset
  | authRoute (p : GoStr)
  | deleteRoute
  | notFoundPage
deriving DecidableEq, Repr

/-- Model of ServeHTTP (server.go): the URL path is stripped of its
leading slash; a non-empty subdomain is handled as a short-code
redirect, the empty path as the dashboard, then register, assets/,
auth/, dashboard and delete; anything else is a 404. -/
def serveHTTP (subdomain urlPath : GoStr) : Route :=
  let path := dropLit (goStr "/") urlPath
  if subdomain != [] then .redirectShortCode subdomain
  else if path == [] then .dashboard
  else if path == goStr "register" then .registerPage
  else if startsWithLit (goStr "assets/") path then .staticAsset
  else if startsWithLit (goStr "auth/") path then .authRoute (dropLit (goStr "auth/") path)
  else if path == goStr "dashboard" then .dashboard
  else if path == goStr "delete" then .deleteRoute
  else .notFoundPage

/-- A decoded JSON value as Go's interface type holds it: the Discord
profile response is a map from strings to such values. -/
inductive JSONVal where
  | jstr (s : GoStr)
  | jnum (n : Int)
  | jbool (b : Bool)
  | jnull
deriving DecidableEq, Repr

/-- Indexing a Go map: the value when the key is present, none (the nil
interface value) otherwise. -/
def lookupField (userData : List (GoStr × JSONVal)) (k : GoStr) : Option JSONVal :=
  (userData.find? (fun p => p.1 == k)).map (fun p => p.2)

/-- An unchecked Go type assertion v.(string): yields the string when v
holds one, and otherwise (wrong dynamic type, or the nil interface from
a missing key) the Go runtime panics, which we model as none. -/
def assertStringUnchecked : Option JSONVal → Option GoStr
  | some (.jstr s) => some s
  | _ => none

/-- A checked Go type assertion v, ok := x.(string): never panics; ok
reports whether v holds a string, and the value defaults to the empty
string otherwise. -/
def assertStringChecked : Option JSONVal → GoStr × Bool
  | some (.jstr s) => (s, true)
  | _ => ([], false)

/-- Model of the profile-extraction step of handleCallback (auth.go):
userData["id"].(string), userData["username"].(string) and
userData["discriminator"].(string) are unchecked assertions, while
avatar uses the comma-ok form and is left empty when absent.  A none
result models the handler panicking; it is not an AuthError page. -/
def callbackExtractUser (userData : List (GoStr × JSONVal)) : Option User :=
  match assertStringUnchecked (lookupField userData (goStr "id")) with
  | none => none
  | some i =>
    match assertStringUnchecked (lookupField userData (goStr "username")) with
    | none => none
    | some un =>
      match assertStringUnchecked (lookupField userData (goStr "discriminator")) with
      | none => none
      | some d =>
        let av := assertStringChecked (lookupField userData (goStr "avatar"))
        some ⟨i, un, if av.2 then av.1 else [], d⟩

/-- Discrimination of the two dashboard outcomes: true exactly when the
response is an HTTP redirect rather than a rendered page. -/
def isRedirectOutcome : DashboardOutcome → Bool
  | .redirectTo _ => true
  | .page _ _ => false

/-- The store-level invariant established by the UNIQUE constraint on
short_code: no two rows share a short code. -/
def codesUnique : List URLMapping → Bool
  | [] => true
  | m :: rest => rest.all (fun x => x.shortCode != m.shortCode) && codesUnique rest

/-- The invariant that every stored short code is already trimmed and
lowercased, as handleRegisterSubmit normalizes every code it inserts. -/
def canonicalCodes (l : List URLMapping) : Bool :=
  l.all (fun m => m.shortCode == toLower (trimSpace m.shortCode))

/-! Helper lemmas about the string primitives. -/

theorem stripLit_eq_append {p l r : GoStr} (h : stripLit p l = some r) : l = p ++ r := by
  induction p generalizing l with
  | nil =>
    simp only [stripLit, Option.some.injEq] at h
    simp [← h]
  | cons a ps ih =>
    cases l with
    | nil => simp [stripLit] at h
    | cons c cs =>
      simp only [stripLit] at h
      split at h
      · next hc =>
        have hca : c = a := by simpa using hc
        subst hca
        simp [ih h]
      · simp at h

theorem isSpaceRune_of_invite {c : Nat} (h : isInviteRune c = true) : isSpaceRune c = false := by
  simp only [isInviteRune, Bool.or_eq_true, Bool.and_eq_true, decide_eq_true_eq] at h
  simp only [isSpaceRune, Bool.or_eq_false_iff, beq_eq_false_iff_ne, ne_eq]
  omega

theorem isSpaceRune_lowerRune (c : Nat) : isSpaceRune (lowerRune c) = isSpaceRune c := by
  unfold lowerRune
  split
  · next h =>
    have h1 : isSpaceRune (c + 32) = false := by
      simp only [isSpaceRune, Bool.or_eq_false_iff, beq_eq_false_iff_ne, ne_eq]
      omega
    have h2 : isSpaceRune c = false := by
      simp only [isSpaceRune, Bool.or_eq_false_iff, beq_eq_false_iff_ne, ne_eq]
      omega
    rw [h1, h2]
  · rfl

theorem lowerRune_idem (c : Nat) : lowerRune (lowerRune c) = lowerRune c := by
  by_cases h : 65 ≤ c ∧ c ≤ 90
  · have h1 : lowerRune c = c + 32 := if_pos h
    have h2 : ¬(65 ≤ c + 32 ∧ c + 32 ≤ 90) := by omega
    rw [h1]
    unfold lowerRune
    rw [if_neg h2]
  · have h1 : lowerRune c = c := if_neg h
    rw [h1]
    exact h1

theorem trimSpace_toLower (s : GoStr) : trimSpace (toLower s) = toLower (trimSpace s) := by
  have hfun : (isSpaceRune ∘ lowerRune) = isSpaceRune := funext isSpaceRune_lowerRune
  unfold trimSpace toLower
  rw [List.dropWhile_map, hfun, ← List.map_reverse, List.dropWhile_map, hfun,
    ← List.map_reverse]

theorem toLower_idem (s : GoStr) : toLower (toLower s) = toLower s := by
  unfold toLower
  rw [List.map_map]
  congr 1
  funext c
  exact lowerRune_idem c

theorem trimSpace_of_ends {a b : Nat} (mid : GoStr) (ha : isSpaceRune a = false)
    (hb : isSpaceRune b = false) :
    trimSpace (a :: (mid ++ [b])) = a :: (mid ++ [b]) := by
  unfold trimSpace
  rw [List.dropWhile_cons_of_neg (by simp [ha])]
  rw [show (a :: (mid ++ [b])).reverse = b :: (mid.reverse ++ [a]) by simp]
  rw [List.dropWhile_cons_of_neg (by simp [hb])]
  simp

theorem match_trimSpace_eq {s : GoStr} (h : discordURLRegexMatch s = true) : trimSpace s = s := by
  unfold discordURLRegexMatch at h
  cases hs : stripLit discordGG s with
  | none => rw [hs] at h; exact absurd h (by simp)
  | some rest =>
    rw [hs] at h
    simp only [Bool.and_eq_true, Bool.not_eq_true', List.all_eq_true] at h
    obtain ⟨hne, hall⟩ := h
    have hseq : s = discordGG ++ rest := stripLit_eq_append hs
    rcases List.eq_nil_or_concat rest with hnil | ⟨L, b, hLb⟩
    · rw [hnil] at hne; simp at hne
    · have hbmem : b ∈ rest := by rw [hLb]; simp
      have hb : isSpaceRune b = false := isSpaceRune_of_invite (hall b hbmem)
      have hgg : discordGG = 104 :: goStr "ttps://discord.gg/" := by decide
      rw [hseq, hLb, hgg, List.concat_eq_append]
      have hassoc : (104 : Nat) :: goStr "ttps://discord.gg/" ++ (L ++ [b]) =
          104 :: ((goStr "ttps://discord.gg/" ++ L) ++ [b]) := by simp
      rw [hassoc]
      exact trimSpace_of_ends _ (by decide) hb

/-! Helper lemmas about the mapping-store operations. -/

theorem mem_insertByCreatedDesc {a m : URLMapping} : ∀ {l : List URLMapping},
    a ∈ insertByCreatedDesc m l ↔ a = m ∨ a ∈ l
  | [] => by simp [insertByCreatedDesc]
  | x :: xs => by
    rw [insertByCreatedDesc]
    by_cases h : m.createdAt ≤ x.createdAt
    · rw [if_pos h]
      rw [List.mem_cons, mem_insertByCreatedDesc (l := xs), List.mem_cons]
      tauto
    · rw [if_neg h]
      simp only [List.mem_cons]

theorem mem_orderByCreatedDesc {a : URLMapping} {l : List URLMapping} :
    a ∈ orderByCreatedDesc l ↔ a ∈ l := by
  induction l with
  | nil => simp [orderByCreatedDesc]
  | cons x xs ih =>
    unfold orderByCreatedDesc at ih ⊢
    rw [List.foldr_cons, mem_insertByCreatedDesc, ih, List.mem_cons]

theorem codesUnique_cons {m : URLMapping} {rest : List URLMapping}
    (h : codesUnique (m :: rest) = true) :
    (∀ x ∈ rest, x.shortCode ≠ m.shortCode) ∧ codesUnique rest = true := by
  simp only [codesUnique, Bool.and_eq_true, List.all_eq_true] at h
  refine ⟨fun x hx => ?_, h.2⟩
  simpa using h.1 x hx

theorem codesUnique_find? {m : URLMapping} {l : List URLMapping}
    (hu : codesUnique l = true) (hm : m ∈ l) :
    l.find? (fun x => x.shortCode == m.shortCode) = some m := by
  induction l with
  | nil => simp at hm
  | cons x xs ih =>
    obtain ⟨hx, hxs⟩ := codesUnique_cons hu
    rcases List.mem_cons.mp hm with rfl | hmem
    · simp
    · have hne : (x.shortCode == m.shortCode) = false := by
        simp only [beq_eq_false_iff_ne, ne_eq]
        intro he
        exact (hx m hmem) he.symm
      simp only [List.find?_cons, hne]
      exact ih hxs hmem

theorem codesUnique_eq_of_code {m x : URLMapping} {l : List URLMapping}
    (hu : codesUnique l = true) (hm : m ∈ l) (hx : x ∈ l)
    (he : x.shortCode = m.shortCode) : x = m := by
  induction l with
  | nil => simp at hm
  | cons y ys ih =>
    obtain ⟨hy, hys⟩ := codesUnique_cons hu
    rcases List.mem_cons.mp hm with rfl | hm2
    · rcases List.mem_cons.mp hx with rfl | hx2
      · rfl
      · exact absurd he (hy x hx2)
    · rcases List.mem_cons.mp hx with rfl | hx2
      · exact absurd he.symm (hy m hm2)
      · exact ih hys hm2 hx2

theorem length_filter_lt_of_mem {α : Type} {m : α} {l : List α} {p : α → Bool}
    (hm : m ∈ l) (hp : p m = false) : (l.filter p).length < l.length := by
  induction l with
  | nil => simp at hm
  | cons x xs ih =>
    rcases List.mem_cons.mp hm with rfl | hm2
    · have hlen := List.length_filter_le p xs
      simp [List.filter_cons, hp]
      omega
    · by_cases hx : p x = true
      · have := ih hm2
        simp [List.filter_cons, hx]
        omega
      · have := ih hm2
        simp [List.filter_cons, hx]
        omega

theorem find?_append_right {α : Type} {l1 l2 : List α} {p : α → Bool}
    (h : ∀ x ∈ l1, p x = false) : (l1 ++ l2).find? p = l2.find? p := by
  rw [List.find?_append]
  have hnone : l1.find? p = none := by
    rw [List.find?_eq_none]
    intro x hx
    simp [h x hx]
  rw [hnone, Option.none_or]

theorem register_success_state {db db2 : DB} {now : Nat} {rawCode rawURL ownerID sc su : GoStr}
    (h : handleRegisterSubmit db now rawCode rawURL ownerID = (.success sc su, db2)) :
    sc = toLower (trimSpace rawCode) ∧ su = trimSpace rawURL ∧
      (∀ m ∈ db.rows, (m.shortCode == toLower (trimSpace rawCode)) = false) ∧
      db2 = ⟨db.rows ++ [⟨db.nextId, toLower (trimSpace rawCode), trimSpace rawURL, now,
        none, ownerID⟩], db.nextId + 1⟩ := by
  simp only [handleRegisterSubmit] at h
  by_cases h1 : (toLower (trimSpace rawCode) == ([] : GoStr)) = true
  · rw [if_pos h1] at h
    simp at h
  · rw [if_neg h1] at h
    by_cases h2 : (!discordURLRegexMatch (trimSpace rawURL)) = true
    · rw [if_pos h2] at h
      simp at h
    · rw [if_neg h2] at h
      cases hcr : createURLMapping db now (toLower (trimSpace rawCode)) (trimSpace rawURL)
          ownerID with
      | none =>
        rw [hcr] at h
        simp at h
      | some dbx =>
        rw [hcr] at h
        simp only [Prod.mk.injEq, RegOutcome.success.injEq] at h
        obtain ⟨⟨hsc, hsu⟩, hdb⟩ := h
        simp only [createURLMapping] at hcr
        by_cases hany : db.rows.any (fun m => m.shortCode == toLower (trimSpace rawCode)) = true
        · rw [if_pos hany] at hcr
          simp at hcr
        · rw [if_neg hany] at hcr
          simp only [Option.some.injEq] at hcr
          refine ⟨hsc.symm, hsu.symm, ?_, ?_⟩
          · intro m hm
            have := Bool.eq_false_iff.mpr hany
            rw [List.any_eq_false] at this
            exact Bool.eq_false_iff.mpr (this m hm)
          · rw [← hdb, ← hcr]

theorem getURLMappingByShortCode_insert {rows : List URLMapping} {i created ni now : Nat}
    {code url ownerID : GoStr}
    (hnone : ∀ m ∈ rows, (m.shortCode == code) = false) :
    getURLMappingByShortCode ⟨rows ++ [⟨i, code, url, created, none, ownerID⟩], ni⟩ now code
      = some url := by
  unfold getURLMappingByShortCode
  rw [find?_append_right (fun x hx => by simp [hnone x hx])]
  simp [notExpired]

theorem resolve_none_of_expired {db : DB} {now t : Nat} {m : URLMapping}
    (hm : m ∈ db.rows) (ht : m.expiresAt = some t) (hle : t ≤ now)
    (hu : codesUnique db.rows = true) :
    getURLMappingByShortCode db now m.shortCode = none := by
  unfold getURLMappingByShortCode
  have hfind : db.rows.find? (fun x => x.shortCode == m.shortCode && notExpired now x)
      = none := by
    rw [List.find?_eq_none]
    intro x hx hpx
    rw [Bool.and_eq_true] at hpx
    obtain ⟨hbeq, hexp⟩ := hpx
    have hxm : x = m := codesUnique_eq_of_code hu hm hx (by simpa using hbeq)
    subst hxm
    have hfalse : notExpired now x = false := by
      simp only [notExpired, ht, decide_eq_false_iff_not]
      omega
    rw [hfalse] at hexp
    exact Bool.false_ne_true hexp
  rw [hfind]
  rfl

theorem not_mem_getUserMappings_of_expired {db : DB} {now t : Nat} {m : URLMapping}
    {uid : GoStr} (ht : m.expiresAt = some t) (hle : t ≤ now) :
    m ∉ getUserMappings db now uid := by
  intro hmem
  unfold getUserMappings at hmem
  rw [mem_orderByCreatedDesc, List.mem_filter, Bool.and_eq_true] at hmem
  have hfalse : notExpired now m = false := by
    simp only [notExpired, ht, decide_eq_false_iff_not]
    omega
  rw [hfalse] at hmem
  exact Bool.false_ne_true hmem.2.2

theorem mem_getUserMappings_of_null {db : DB} {now : Nat} {m : URLMapping}
    (hm : m ∈ db.rows) (hnull : m.expiresAt = none) :
    m ∈ getUserMappings db now m.ownerID := by
  unfold getUserMappings
  rw [mem_orderByCreatedDesc, List.mem_filter]
  refine ⟨hm, ?_⟩
  simp [notExpired, hnull]

/-! Claim theorems. -/

/-- C1 (counterexample): the claim fails for a code with surrounding
whitespace.  Register(" x ", "https://discord.gg/x", "user1") succeeds,
storing the normalized code "x", but Resolve(" x ") only lowercases and
does not trim, so the lookup key " x " misses the stored row and the
resolution is NotFound instead of the registered URL. -/
theorem register_resolve_untrimmed_cex :
    (handleRegisterSubmit ⟨[], 1⟩ 0 (goStr " x ") (goStr "https://discord.gg/x")
        (goStr "user1")).1
      = RegOutcome.success (goStr "x") (goStr "https://discord.gg/x") ∧
    handleRedirect (handleRegisterSubmit ⟨[], 1⟩ 0 (goStr " x ")
        (goStr "https://discord.gg/x") (goStr "user1")).2 0 (goStr " x ")
      = RedirectOutcome.notFound := by
  refine ⟨by decide, by decide⟩

/-- C1 (amended): for every code c with no surrounding whitespace
(trimSpace c = c) that is non-empty after trimming, and every URL u
matching the allow-list pattern, a successful Register(c, u, owner)
followed by Resolve(c) — at any later time — returns exactly u,
unmodified. -/
theorem register_then_resolve (db : DB) (now now2 : Nat) (c u ownerID : GoStr)
    (db2 : DB) (sc su : GoStr)
    (hc : trimSpace c = c)
    (hu : discordURLRegexMatch u = true)
    (h : handleRegisterSubmit db now c u ownerID = (.success sc su, db2)) :
    handleRedirect db2 now2 c = .redirect u := by
  obtain ⟨hsc, hsu, hfresh, hdb2⟩ := register_success_state h
  have htu : trimSpace u = u := match_trimSpace_eq hu
  rw [htu] at hdb2
  have hq : toLower c = toLower (trimSpace c) := by rw [hc]
  simp only [handleRedirect]
  rw [hq, hdb2, getURLMappingByShortCode_insert hfresh]

/-- Witness for C1 (amended): registering "abc" in the empty store and
resolving "abc" later returns the registered URL. -/
theorem register_then_resolve_witness :
    handleRedirect ⟨[⟨1, goStr "abc", goStr "https://discord.gg/xyz", 0, none,
        goStr "user1"⟩], 2⟩ 7 (goStr "abc")
      = RedirectOutcome.redirect (goStr "https://discord.gg/xyz") :=
  register_then_resolve ⟨[], 1⟩ 0 7 (goStr "abc") (goStr "https://discord.gg/xyz")
    (goStr "user1")
    ⟨[⟨1, goStr "abc", goStr "https://discord.gg/xyz", 0, none, goStr "user1"⟩], 2⟩
    (goStr "abc") (goStr "https://discord.gg/xyz") (by decide) (by decide) (by decide)

/-- C2: short-code uniqueness is enforced by the store.  In every state
in which some row already carries the normalized code, a second Register
of a code with the same normalization — with any owner and any URL that
passes validation — fails with ConflictError and leaves the store
exactly as it was. -/
theorem register_duplicate_conflict (db : DB) (now : Nat) (rawCode rawURL ownerID : GoStr)
    (hex : ∃ m ∈ db.rows, m.shortCode = toLower (trimSpace rawCode))
    (hne : toLower (trimSpace rawCode) ≠ [])
    (hurl : discordURLRegexMatch (trimSpace rawURL) = true) :
    handleRegisterSubmit db now rawCode rawURL ownerID = (.conflictError, db) := by
  obtain ⟨m, hm, hcode⟩ := hex
  have h1 : (toLower (trimSpace rawCode) == ([] : GoStr)) = false := by simpa using hne
  have hany : db.rows.any (fun x => x.shortCode == toLower (trimSpace rawCode)) = true := by
    rw [List.any_eq_true]
    exact ⟨m, hm, by simp [hcode]⟩
  simp [handleRegisterSubmit, createURLMapping, h1, hurl, hany]

/-- Witness for C2: with "abc" registered to user1, registering "ABC "
(same normalization, different owner and URL) yields ConflictError and
the store is unchanged. -/
theorem register_duplicate_conflict_witness :
    handleRegisterSubmit
        ⟨[⟨1, goStr "abc", goStr "https://discord.gg/one", 0, none, goStr "user1"⟩], 2⟩
        5 (goStr "ABC ") (goStr "https://discord.gg/two") (goStr "user2")
      = (RegOutcome.conflictError,
        ⟨[⟨1, goStr "abc", goStr "https://discord.gg/one", 0, none, goStr "user1"⟩], 2⟩) :=
  register_duplicate_conflict
    ⟨[⟨1, goStr "abc", goStr "https://discord.gg/one", 0, none, goStr "user1"⟩], 2⟩
    5 (goStr "ABC ") (goStr "https://discord.gg/two") (goStr "user2")
    ⟨⟨1, goStr "abc", goStr "https://discord.gg/one", 0, none, goStr "user1"⟩,
      by decide, by decide⟩
    (by decide) (by decide)

/-- C3: when the stored owner of the looked-up code differs from the
requester, handleDelete fails with Forbidden, the store is returned
unchanged, and resolution of the same code afterwards is exactly what it
was before the call. -/
theorem delete_forbidden_state_unchanged (db : DB) (rawCode requesterID o : GoStr)
    (h1 : getURLMappingOwner db (toLower (trimSpace rawCode)) = some o)
    (h2 : o ≠ requesterID)
    (h3 : toLower (trimSpace rawCode) ≠ []) :
    handleDelete db rawCode requesterID = (.forbidden, db) ∧
      ∀ now, handleRedirect (handleDelete db rawCode requesterID).2 now rawCode
        = handleRedirect db now rawCode := by
  have hne : (toLower (trimSpace rawCode) == ([] : GoStr)) = false := by simpa using h3
  have hbne : (o != requesterID) = true := by simpa using h2
  have hmain : handleDelete db rawCode requesterID = (.forbidden, db) := by
    simp [handleDelete, hne, h1, hbne]
  exact ⟨hmain, fun now => by rw [hmain]⟩

/-- Witness for C3: user2 attempting to delete user1's link "abc" gets
Forbidden and the row stays resolvable. -/
theorem delete_forbidden_state_unchanged_witness :
    handleDelete ⟨[⟨1, goStr "abc", goStr "https://discord.gg/one", 0, none,
          goStr "user1"⟩], 2⟩ (goStr "abc") (goStr "user2")
      = (DeleteOutcome.forbidden,
        ⟨[⟨1, goStr "abc", goStr "https://discord.gg/one", 0, none, goStr "user1"⟩], 2⟩) ∧
      ∀ now, handleRedirect
          (handleDelete ⟨[⟨1, goStr "abc", goStr "https://discord.gg/one", 0, none,
            goStr "user1"⟩], 2⟩ (goStr "abc") (goStr "user2")).2 now (goStr "abc")
        = handleRedirect ⟨[⟨1, goStr "abc", goStr "https://discord.gg/one", 0, none,
            goStr "user1"⟩], 2⟩ now (goStr "abc") :=
  delete_forbidden_state_unchanged
    ⟨[⟨1, goStr "abc", goStr "https://discord.gg/one", 0, none, goStr "user1"⟩], 2⟩
    (goStr "abc") (goStr "user2") (goStr "user1") (by decide) (by decide) (by decide)

/-- C4 (counterexample): a GET of the root path does dispatch to the
dashboard handler, but an unauthenticated visitor (no session cookie) is
not shown the landing/dashboard page: the handler answers with an HTTP
redirect to /auth/login, refuting the claim that no authentication is
required to see the page. -/
theorem root_unauthenticated_redirect_cex :
    serveHTTP [] (goStr "/") = Route.dashboard ∧
    handleDashboard ⟨[], 1⟩ [] [] 0 none = .redirectTo (goStr "/auth/login") ∧
    isRedirectOutcome (handleDashboard ⟨[], 1⟩ [] [] 0 none) = true := by
  refine ⟨by decide, by decide, by decide⟩

/-- C4 (amended): a GET request to the root path dispatches to the
dashboard handler with no router-level authentication gate; the handler
itself redirects an unauthenticated visitor to /auth/login, while an
authenticated visitor is shown the dashboard page listing their own
links. -/
theorem root_dashboard_behavior (db : DB) (users : List User) (sessions : List Session)
    (now : Nat) (cookie : Option GoStr) (u : User)
    (h : getCurrentUser users sessions now cookie = some u) :
    serveHTTP [] (goStr "/") = Route.dashboard ∧
    handleDashboard db users sessions now none = .redirectTo (goStr "/auth/login") ∧
    handleDashboard db users sessions now cookie
      = .page u (getUserMappings db now u.id) := by
  refine ⟨by decide, rfl, ?_⟩
  simp [handleDashboard, h]

/-- Witness for C4 (amended): a visitor with a valid session cookie for
user1 is shown the dashboard page with user1's (here: empty) link list. -/
theorem root_dashboard_behavior_witness :
    serveHTTP [] (goStr "/") = Route.dashboard ∧
    handleDashboard ⟨[], 1⟩ [⟨goStr "user1", goStr "alice", [], goStr "0"⟩]
        [⟨goStr "sess1", goStr "user1", 10⟩] 0 none
      = .redirectTo (goStr "/auth/login") ∧
    handleDashboard ⟨[], 1⟩ [⟨goStr "user1", goStr "alice", [], goStr "0"⟩]
        [⟨goStr "sess1", goStr "user1", 10⟩] 0 (some (goStr "sess1"))
      = .page ⟨goStr "user1", goStr "alice", [], goStr "0"⟩
          (getUserMappings ⟨[], 1⟩ 0 (goStr "user1")) :=
  root_dashboard_behavior ⟨[], 1⟩ [⟨goStr "user1", goStr "alice", [], goStr "0"⟩]
    [⟨goStr "sess1", goStr "user1", 10⟩] 0 (some (goStr "sess1"))
    ⟨goStr "user1", goStr "alice", [], goStr "0"⟩ (by decide)

/-- C5: resolution is case-insensitive.  After a successful
Register("AbC", u, owner) with u on the allow-list, both Resolve("abc")
and Resolve("ABC") — at any later time — succeed and return u: the
register path lowercases the code before storing and the resolve path
lowercases the code before the lookup. -/
theorem resolve_case_insensitive (db : DB) (now now2 : Nat) (u ownerID : GoStr)
    (db2 : DB) (sc su : GoStr)
    (hu : discordURLRegexMatch u = true)
    (h : handleRegisterSubmit db now (goStr "AbC") u ownerID = (.success sc su, db2)) :
    handleRedirect db2 now2 (goStr "abc") = .redirect u ∧
      handleRedirect db2 now2 (goStr "ABC") = .redirect u := by
  obtain ⟨hsc, hsu, hfresh, hdb2⟩ := register_success_state h
  have htu : trimSpace u = u := match_trimSpace_eq hu
  rw [htu] at hdb2
  have hcode : toLower (trimSpace (goStr "AbC")) = goStr "abc" := by decide
  rw [hcode] at hdb2 hfresh
  constructor
  · simp only [handleRedirect]
    rw [show toLower (goStr "abc") = goStr "abc" by decide, hdb2,
      getURLMappingByShortCode_insert hfresh]
  · simp only [handleRedirect]
    rw [show toLower (goStr "ABC") = goStr "abc" by decide, hdb2,
      getURLMappingByShortCode_insert hfresh]

/-- Witness for C5: after registering "AbC" in the empty store, both
lookups of "abc" and "ABC" return the registered URL. -/
theorem resolve_case_insensitive_witness :
    handleRedirect ⟨[⟨1, goStr "abc", goStr "https://discord.gg/xyz", 0, none,
        goStr "user1"⟩], 2⟩ 9 (goStr "abc")
      = RedirectOutcome.redirect (goStr "https://discord.gg/xyz") ∧
    handleRedirect ⟨[⟨1, goStr "abc", goStr "https://discord.gg/xyz", 0, none,
        goStr "user1"⟩], 2⟩ 9 (goStr "ABC")
      = RedirectOutcome.redirect (goStr "https://discord.gg/xyz") :=
  resolve_case_insensitive ⟨[], 1⟩ 0 9 (goStr "https://discord.gg/xyz") (goStr "user1")
    ⟨[⟨1, goStr "abc", goStr "https://discord.gg/xyz", 0, none, goStr "user1"⟩], 2⟩
    (goStr "abc") (goStr "https://discord.gg/xyz") (by decide) (by decide)

/-- C9: the callback's profile extraction uses unchecked type assertions
for id, username and discriminator, so a profile map lacking the id
field, or carrying a non-string id, makes the handler panic (modelled as
none) rather than produce an AuthError page; the avatar field alone uses
the checked comma-ok assertion, so a null avatar is tolerated and left
empty. -/
theorem callback_unchecked_assertions :
    callbackExtractUser [(goStr "username", .jstr (goStr "alice")),
        (goStr "discriminator", .jstr (goStr "0"))] = none ∧
    callbackExtractUser [(goStr "id", .jnull),
        (goStr "username", .jstr (goStr "alice")),
        (goStr "discriminator", .jstr (goStr "0"))] = none ∧
    callbackExtractUser [(goStr "id", .jstr (goStr "42")),
        (goStr "username", .jstr (goStr "alice")),
        (goStr "discriminator", .jstr (goStr "0")),
        (goStr "avatar", .jnull)]
      = some ⟨goStr "42", goStr "alice", [], goStr "0"⟩ := by
  refine ⟨by decide, by decide, by decide⟩

/-- C6: under the store's uniqueness invariant, a mapping whose
expires_at is set and in the past (expires_at ≤ now fails the strict
expires_at > now condition) is invisible to resolution — the lookup of
its code returns none, exactly as for a code never registered — and is
omitted from its owner's listing; a mapping with a NULL expires_at is
never filtered out of the listing. -/
theorem expired_mapping_absent (db : DB) (now : Nat) (m : URLMapping) (t : Nat)
    (hm : m ∈ db.rows) :
    (m.expiresAt = some t → t ≤ now → codesUnique db.rows = true →
       getURLMappingByShortCode db now m.shortCode = none ∧
       m ∉ getUserMappings db now m.ownerID) ∧
    (m.expiresAt = none → m ∈ getUserMappings db now m.ownerID) := by
  constructor
  · intro ht hle hu
    exact ⟨resolve_none_of_expired hm ht hle hu,
      not_mem_getUserMappings_of_expired ht hle⟩
  · intro hnull
    exact mem_getUserMappings_of_null hm hnull

/-- Witness for C6: a row that expired at time 3 is absent for both
resolution and listing at time 5. -/
theorem expired_mapping_absent_witness :
    getURLMappingByShortCode ⟨[⟨1, goStr "old", goStr "https://discord.gg/old", 0,
        some 3, goStr "user1"⟩], 2⟩ 5 (goStr "old") = none ∧
    (⟨1, goStr "old", goStr "https://discord.gg/old", 0, some 3, goStr "user1"⟩ :
        URLMapping)
      ∉ getUserMappings ⟨[⟨1, goStr "old", goStr "https://discord.gg/old", 0, some 3,
        goStr "user1"⟩], 2⟩ 5 (goStr "user1") :=
  (expired_mapping_absent
      ⟨[⟨1, goStr "old", goStr "https://discord.gg/old", 0, some 3, goStr "user1"⟩], 2⟩
      5 ⟨1, goStr "old", goStr "https://discord.gg/old", 0, some 3, goStr "user1"⟩ 3
      (by decide)).1 (by decide) (by decide) (by decide)

/-- C8: with a non-empty normalized code, registration fails with
ValidationError exactly when the trimmed URL does not match the anchored
pattern, and on that failure no mapping is inserted (the store is
unchanged); the three probe inputs — wrong scheme, empty invite token,
and a non-anchored occurrence of the pattern — are all rejected by the
regular expression. -/
theorem register_url_validation (db : DB) (now : Nat) (rawCode rawURL ownerID : GoStr)
    (h : toLower (trimSpace rawCode) ≠ []) :
    ((handleRegisterSubmit db now rawCode rawURL ownerID).1 = .validationError ↔
      discordURLRegexMatch (trimSpace rawURL) = false) ∧
    ((handleRegisterSubmit db now rawCode rawURL ownerID).1 = .validationError →
      (handleRegisterSubmit db now rawCode rawURL ownerID).2 = db) ∧
    discordURLRegexMatch (trimSpace (goStr "http://discord.gg/x")) = false ∧
    discordURLRegexMatch (trimSpace (goStr "https://discord.gg/")) = false ∧
    discordURLRegexMatch (trimSpace (goStr "https://evil.com/discord.gg/x")) = false := by
  have hne : (toLower (trimSpace rawCode) == ([] : GoStr)) = false := by simpa using h
  refine ⟨?_, ?_, by decide, by decide, by decide⟩
  · cases hm : discordURLRegexMatch (trimSpace rawURL) with
    | false => simp [handleRegisterSubmit, hne, hm]
    | true =>
      cases hcr : createURLMapping db now (toLower (trimSpace rawCode))
          (trimSpace rawURL) ownerID with
      | none => simp [handleRegisterSubmit, hne, hm, hcr]
      | some dbx => simp [handleRegisterSubmit, hne, hm, hcr]
  · intro hv
    cases hm : discordURLRegexMatch (trimSpace rawURL) with
    | false => simp [handleRegisterSubmit, hne, hm]
    | true =>
      exfalso
      cases hcr : createURLMapping db now (toLower (trimSpace rawCode))
          (trimSpace rawURL) ownerID with
      | none => simp [handleRegisterSubmit, hne, hm, hcr] at hv
      | some dbx => simp [handleRegisterSubmit, hne, hm, hcr] at hv

/-- Witness for C8: with code "abc" and the wrong-scheme URL, the
outcome is ValidationError, the store stays empty, and the three probe
URLs fail the pattern. -/
theorem register_url_validation_witness :
    ((handleRegisterSubmit ⟨[], 1⟩ 0 (goStr "abc") (goStr "http://discord.gg/x")
        (goStr "user1")).1 = .validationError ↔
      discordURLRegexMatch (trimSpace (goStr "http://discord.gg/x")) = false) ∧
    ((handleRegisterSubmit ⟨[], 1⟩ 0 (goStr "abc") (goStr "http://discord.gg/x")
        (goStr "user1")).1 = .validationError →
      (handleRegisterSubmit ⟨[], 1⟩ 0 (goStr "abc") (goStr "http://discord.gg/x")
        (goStr "user1")).2 = ⟨[], 1⟩) ∧
    discordURLRegexMatch (trimSpace (goStr "http://discord.gg/x")) = false ∧
    discordURLRegexMatch (trimSpace (goStr "https://discord.gg/")) = false ∧
    discordURLRegexMatch (trimSpace (goStr "https://evil.com/discord.gg/x")) = false :=
  register_url_validation ⟨[], 1⟩ 0 (goStr "abc") (goStr "http://discord.gg/x")
    (goStr "user1") (by decide)

/-- C7: under the store invariants (unique, canonical codes), a delete
by the stored owner succeeds: the outcome is the success redirect, no
row with the normalized code remains, and a subsequent resolution of the
same raw code — at any time — fails with NotFound.  The delete statement
is predicated on code and requester together (deleteURLMapping), and a
zero rows-affected result would be reported as NotFound; with the owner
row present that branch is not taken. -/
theorem owner_delete_then_resolve (db : DB) (rawCode requesterID : GoStr)
    (h0 : toLower (trimSpace rawCode) ≠ [])
    (h1 : getURLMappingOwner db (toLower (trimSpace rawCode)) = some requesterID)
    (huniq : codesUnique db.rows = true)
    (hcanon : canonicalCodes db.rows = true) :
    (handleDelete db rawCode requesterID).1 = .ok ∧
    (∀ x ∈ (handleDelete db rawCode requesterID).2.rows,
        x.shortCode ≠ toLower (trimSpace rawCode)) ∧
    ∀ now, handleRedirect (handleDelete db rawCode requesterID).2 now rawCode
      = .notFound := by
  have hne : (toLower (trimSpace rawCode) == ([] : GoStr)) = false := by simpa using h0
  unfold getURLMappingOwner at h1
  rw [Option.map_eq_some'] at h1
  obtain ⟨m0, hfind, hown⟩ := h1
  have hmem0 : m0 ∈ db.rows := List.mem_of_find?_eq_some hfind
  have hm0code : m0.shortCode = toLower (trimSpace rawCode) := by
    simpa using List.find?_some hfind
  have hpm0 : (fun x => !(x.shortCode == toLower (trimSpace rawCode) &&
      x.ownerID == requesterID)) m0 = false := by
    simp [hm0code, hown]
  have hlen := @length_filter_lt_of_mem URLMapping m0 db.rows
    (fun x => !(x.shortCode == toLower (trimSpace rawCode) && x.ownerID == requesterID))
    hmem0 hpm0
  have hzero : (db.rows.length -
      (db.rows.filter (fun x => !(x.shortCode == toLower (trimSpace rawCode) &&
        x.ownerID == requesterID))).length == 0) = false := by
    simp only [beq_eq_false_iff_ne, ne_eq]
    omega
  have hdel : handleDelete db rawCode requesterID
      = (.ok, ⟨db.rows.filter (fun x => !(x.shortCode == toLower (trimSpace rawCode) &&
          x.ownerID == requesterID)), db.nextId⟩) := by
    simp only [handleDelete, hne, Bool.false_eq_true, if_false, getURLMappingOwner,
      hfind, Option.map_some', hown, bne_self_eq_false, deleteURLMapping, hzero]
  have hgone : ∀ x ∈ (handleDelete db rawCode requesterID).2.rows,
      x.shortCode ≠ toLower (trimSpace rawCode) := by
    rw [hdel]
    intro x hx hcx
    obtain ⟨hxrows, hpx⟩ := List.mem_filter.mp hx
    have hxm : x = m0 :=
      codesUnique_eq_of_code huniq hmem0 hxrows (hcx.trans hm0code.symm)
    rw [hxm] at hpx
    simp [hm0code, hown] at hpx
  refine ⟨by rw [hdel], hgone, ?_⟩
  intro now
  simp only [handleRedirect]
  have hnoneq : getURLMappingByShortCode (handleDelete db rawCode requesterID).2 now
      (toLower rawCode) = none := by
    unfold getURLMappingByShortCode
    have hfind2 : (handleDelete db rawCode requesterID).2.rows.find?
        (fun x => x.shortCode == toLower rawCode && notExpired now x) = none := by
      rw [List.find?_eq_none]
      intro x hx hpx
      rw [Bool.and_eq_true] at hpx
      have hxq : x.shortCode = toLower rawCode := by simpa using hpx.1
      have hxcanon : x.shortCode = toLower (trimSpace x.shortCode) := by
        have hxrows : x ∈ db.rows := by
          rw [hdel] at hx
          exact (List.mem_filter.mp hx).1
        have := (List.all_eq_true.mp hcanon) x hxrows
        simpa using this
      have hq : toLower rawCode = toLower (trimSpace rawCode) := by
        have h2 : trimSpace (toLower rawCode) = toLower (trimSpace rawCode) :=
          trimSpace_toLower rawCode
        calc toLower rawCode = x.shortCode := hxq.symm
          _ = toLower (trimSpace x.shortCode) := hxcanon
          _ = toLower (trimSpace (toLower rawCode)) := by rw [hxq]
          _ = toLower (toLower (trimSpace rawCode)) := by rw [h2]
          _ = toLower (trimSpace rawCode) := toLower_idem _
      exact hgone x hx (hxq.trans hq)
    rw [hfind2]
    rfl
  rw [hnoneq]

/-- Witness for C7: user1 deletes their own link "abc"; the outcome is
success, no row with the code remains and any later resolution of "abc"
is NotFound. -/
theorem owner_delete_then_resolve_witness :
    (handleDelete ⟨[⟨1, goStr "abc", goStr "https://discord.gg/one", 0, none,
        goStr "user1"⟩], 2⟩ (goStr "abc") (goStr "user1")).1 = DeleteOutcome.ok ∧
    (∀ x ∈ (handleDelete ⟨[⟨1, goStr "abc", goStr "https://discord.gg/one", 0, none,
        goStr "user1"⟩], 2⟩ (goStr "abc") (goStr "user1")).2.rows,
      x.shortCode ≠ toLower (trimSpace (goStr "abc"))) ∧
    ∀ now, handleRedirect (handleDelete ⟨[⟨1, goStr "abc",
        goStr "https://discord.gg/one", 0, none, goStr "user1"⟩], 2⟩ (goStr "abc")
        (goStr "user1")).2 now (goStr "abc")
      = RedirectOutcome.notFound :=
  owner_delete_then_resolve ⟨[⟨1, goStr "abc", goStr "https://discord.gg/one", 0, none,
      goStr "user1"⟩], 2⟩ (goStr "abc") (goStr "user1") (by decide) (by decide)
    (by decide) (by decide)

/-- C10: deletion never consults expiry.  For a mapping whose expires_at
is in the past — which resolution and the owner's listing both treat as
absent — a delete by the stored owner still succeeds and removes the
row, and a delete by any other requester still fails with Forbidden (not
NotFound), because getURLMappingOwner and deleteURLMapping carry no
expires_at condition. -/
theorem delete_ignores_expiry (db : DB) (now t : Nat) (m : URLMapping) (otherID : GoStr)
    (hm : m ∈ db.rows) (ht : m.expiresAt = some t) (hle : t ≤ now)
    (huniq : codesUnique db.rows = true)
    (hcanon : m.shortCode = toLower (trimSpace m.shortCode))
    (hne : m.shortCode ≠ [])
    (hother : otherID ≠ m.ownerID) :
    ((handleDelete db m.shortCode m.ownerID).1 = .ok ∧
      m ∉ (handleDelete db m.shortCode m.ownerID).2.rows) ∧
    handleDelete db m.shortCode otherID = (.forbidden, db) ∧
    getURLMappingByShortCode db now m.shortCode = none ∧
    m ∉ getUserMappings db now m.ownerID := by
  have hfind : db.rows.find? (fun x => x.shortCode == m.shortCode) = some m :=
    codesUnique_find? huniq hm
  have hbe : (toLower (trimSpace m.shortCode) == ([] : GoStr)) = false := by
    rw [← hcanon]
    simpa using hne
  have hown : getURLMappingOwner db (toLower (trimSpace m.shortCode))
      = some m.ownerID := by
    unfold getURLMappingOwner
    rw [← hcanon, hfind]
    rfl
  have hpm : (fun x => !(x.shortCode == toLower (trimSpace m.shortCode) &&
      x.ownerID == m.ownerID)) m = false := by
    simp [← hcanon]
  have hlen := @length_filter_lt_of_mem URLMapping m db.rows
    (fun x => !(x.shortCode == toLower (trimSpace m.shortCode) &&
      x.ownerID == m.ownerID)) hm hpm
  have hzero : (db.rows.length - (db.rows.filter (fun x => !(x.shortCode ==
      toLower (trimSpace m.shortCode) && x.ownerID == m.ownerID))).length == 0)
      = false := by
    simp only [beq_eq_false_iff_ne, ne_eq]
    omega
  have hdelOk : handleDelete db m.shortCode m.ownerID
      = (.ok, ⟨db.rows.filter (fun x => !(x.shortCode == toLower (trimSpace m.shortCode)
          && x.ownerID == m.ownerID)), db.nextId⟩) := by
    simp only [handleDelete, hbe, Bool.false_eq_true, if_false, hown,
      bne_self_eq_false, deleteURLMapping, hzero]
  have hbneOther : (m.ownerID != otherID) = true := by
    simp only [bne_iff_ne, ne_eq]
    exact fun he => hother he.symm
  have hdelForb : handleDelete db m.shortCode otherID = (.forbidden, db) := by
    simp [handleDelete, hbe, hown, hbneOther]
  refine ⟨⟨by rw [hdelOk], ?_⟩, hdelForb, resolve_none_of_expired hm ht hle huniq,
    not_mem_getUserMappings_of_expired ht hle⟩
  rw [hdelOk]
  intro hmem2
  obtain ⟨_, hpx⟩ := List.mem_filter.mp hmem2
  simp [← hcanon] at hpx

/-- Witness for C10: a row that expired at time 3 is invisible to
resolution and listing at time 5, yet its owner can still delete it and
another user is still refused with Forbidden. -/
theorem delete_ignores_expiry_witness :
    ((handleDelete ⟨[⟨1, goStr "old", goStr "https://discord.gg/old", 0, some 3,
        goStr "user1"⟩], 2⟩ (goStr "old") (goStr "user1")).1 = DeleteOutcome.ok ∧
      (⟨1, goStr "old", goStr "https://discord.gg/old", 0, some 3, goStr "user1"⟩ :
          URLMapping)
        ∉ (handleDelete ⟨[⟨1, goStr "old", goStr "https://discord.gg/old", 0, some 3,
          goStr "user1"⟩], 2⟩ (goStr "old") (goStr "user1")).2.rows) ∧
    handleDelete ⟨[⟨1, goStr "old", goStr "https://discord.gg/old", 0, some 3,
        goStr "user1"⟩], 2⟩ (goStr "old") (goStr "user2")
      = (DeleteOutcome.forbidden,
        ⟨[⟨1, goStr "old", goStr "https://discord.gg/old", 0, some 3,
          goStr "user1"⟩], 2⟩) ∧
    getURLMappingByShortCode ⟨[⟨1, goStr "old", goStr "https://discord.gg/old", 0,
        some 3, goStr "user1"⟩], 2⟩ 5 (goStr "old") = none ∧
    (⟨1, goStr "old", goStr "https://discord.gg/old", 0, some 3, goStr "user1"⟩ :
        URLMapping)
      ∉ getUserMappings ⟨[⟨1, goStr "old", goStr "https://discord.gg/old", 0, some 3,
        goStr "user1"⟩], 2⟩ 5 (goStr "user1") :=
  delete_ignores_expiry
    ⟨[⟨1, goStr "old", goStr "https://discord.gg/old", 0, some 3, goStr "user1"⟩], 2⟩
    5 3 ⟨1, goStr "old", goStr "https://discord.gg/old", 0, some 3, goStr "user1"⟩
    (goStr "user2") (by decide) (by decide) (by decide) (by decide) (by decide)
    (by decide) (by decide)

end DropReg
